import Mathlib

/-!
Verification of the MCP23017 I2C GPIO-expander driver (`MCP23017.hpp`).

The driver is stateless except for its transport handle: every operation is
translated into single-byte register reads and writes against the chip's
register file.  We embed the driver shallowly:

* the chip's register file is a function `Regs : Nat → Nat` (byte-addressed,
  byte-valued; `readReg` truncates with `% 256` to mirror `uint8_t`),
* every bus transaction attempted by the driver is recorded in a trace
  (`Tx.rd reg` / `Tx.wr reg val`), so we can reason about which registers an
  operation touches,
* transport failures are modelled by a `Bus` record of per-register success
  flags: a failed read returns `0` (the C++ `readReg` initialises
  `value = 0`, catches the exception, prints, and returns `value`), a failed
  write leaves the register file unchanged.  Both still record the attempted
  transaction.

Driver functions are state-passing versions of their C++ counterparts and
keep their source names.
-/

namespace MCP23017

/-! ### The chip's register map (`MCP23017.hpp`, private constants) -/

def IODIRA : Nat := 0x00
def IODIRB : Nat := 0x01
def GPPUA : Nat := 0x0C
def GPPUB : Nat := 0x0D
def GPIOA : Nat := 0x12
def GPIOB : Nat := 0x13
def OLATA : Nat := 0x14
def OLATB : Nat := 0x15
def GPINTENA : Nat := 0x04
def GPINTENB : Nat := 0x05
def IOCON : Nat := 0x0A
def DEFVALA : Nat := 0x06
def DEFVALB : Nat := 0x07
def INTFA : Nat := 0x0E
def INTFB : Nat := 0x0F
def INTCAPA : Nat := 0x10
def INTCAPB : Nat := 0x11
def INTCONA : Nat := 0x08
def INTCONB : Nat := 0x09

/-! ### Enumerations (`pin_Mode`, `pin_Value`, `int_Mode`) and `IntEvent` -/

inductive pin_Mode where
  | INPUT
  | OUTPUT
  | INPUT_PULLUP
deriving DecidableEq

inductive pin_Value where
  | HIGH
  | LOW
  | ERROR
deriving DecidableEq

inductive int_Mode where
  | CHANGE
  | RISING
  | FALLING
deriving DecidableEq

structure IntEvent where
  pin : Nat
  level : Bool
deriving DecidableEq

/-! ### Bus-transaction model -/

/-- A single attempted I2C transaction: a register read or a register write. -/
inductive Tx where
  | rd (reg : Nat)
  | wr (reg : Nat) (val : Nat)
deriving DecidableEq

/-- The chip's byte-addressed register file. -/
abbrev Regs := Nat → Nat

/-- Driver-visible world: the chip's registers plus the trace of attempted
transactions (in issue order). -/
structure St where
  regs : Regs
  trace : List Tx

/-- Transport reliability: whether a read / write of a given register
succeeds at the syscall level.  An instance whose `open`/`ioctl` failed has
an invalid descriptor, so every syscall on it fails. -/
structure Bus where
  readOK : Nat → Bool
  writeOK : Nat → Bool

/-- A healthy transport: every transaction succeeds. -/
def allOK : Bus := ⟨fun _ => true, fun _ => true⟩

/-- A dead transport (e.g. the file descriptor is invalid after a failed
`open`): every syscall fails. -/
def busDown : Bus := ⟨fun _ => false, fun _ => false⟩

/-- A transport on which reading register `bad` fails but everything else
works. -/
def busReadFail (bad : Nat) : Bus := ⟨fun r => r != bad, fun _ => true⟩

/-! ### Transport primitives (`writeReg`, `readReg`)

C++ `readReg`: `value = 0; write(fd,&reg,1); read(fd,&value,1);` with both
calls throwing on short transfer; the exception is caught, printed, and the
(still zero) `value` returned.  C++ `writeReg`: `write(fd, {reg, value}, 2)`,
exception likewise caught and printed, register unmodified on failure. -/

def readReg (bus : Bus) (s : St) (reg : Nat) : Nat × St :=
  let s' : St := ⟨s.regs, s.trace ++ [Tx.rd reg]⟩
  if bus.readOK reg then (s.regs reg % 256, s') else (0, s')

def writeReg (bus : Bus) (s : St) (reg value : Nat) : St :=
  let v := value % 256
  if bus.writeOK reg then
    ⟨fun r => if r = reg then v else s.regs r, s.trace ++ [Tx.wr reg v]⟩
  else
    ⟨s.regs, s.trace ++ [Tx.wr reg v]⟩

/-! ### Byte-level bit operations

On `uint8_t v`, C++ `v |= (1 << bit)` and `v &= ~(1 << bit)` compute in
`int` and truncate the result back to eight bits; for `bit < 8` and
`v < 256` (always the case in this driver: `bit = pin % 8` and `v` comes
from `readReg`) this is exactly `v ||| (1 <<< bit)` respectively
`v &&& (0xFF ^^^ (1 <<< bit))` on `Nat`. -/

def setBit8 (v bit : Nat) : Nat := v ||| (1 <<< bit)

def clearBit8 (v bit : Nat) : Nat := v &&& (0xFF ^^^ (1 <<< bit))

/-! ### `pinCheck` -/

/-- C++ `pinCheck(int pin)`: prints and returns `false` outside `[0, 15]`.
The diagnostic goes to `stderr`; the boolean is the only thing the caller
sees. -/
def pinCheck (pin : Int) : Bool :=
  if pin < 0 || pin > 15 then false else true

/-! ### Public pin operations -/

/-- C++ `pinMode(uint8_t pin, pin_Mode mode)`: read-modify-write of the
bank's direction and pull-up registers.  Returns only the new world state:
the C++ function returns `void`, so an invalid pin is reported to the
caller by nothing at all. -/
def pinMode (bus : Bus) (s : St) (pin : Nat) (mode : pin_Mode) : St :=
  if !pinCheck pin then s
  else
    let regDir := if pin < 8 then IODIRA else IODIRB
    let regPup := if pin < 8 then GPPUA else GPPUB
    let bit := pin % 8
    let r1 := readReg bus s regDir
    let r2 := readReg bus r1.2 regPup
    let dirVal :=
      match mode with
      | .OUTPUT => clearBit8 r1.1 bit
      | .INPUT => setBit8 r1.1 bit
      | .INPUT_PULLUP => setBit8 r1.1 bit
    let pupVal :=
      match mode with
      | .INPUT_PULLUP => setBit8 r2.1 bit
      | .INPUT => clearBit8 r2.1 bit
      | .OUTPUT => clearBit8 r2.1 bit
    writeReg bus (writeReg bus r2.2 regDir dirVal) regPup pupVal

/-- C++ `pinWrite(uint8_t pin, pin_Value value)`: read-modify-write of the
bank's output latch.  On `ERROR` (the `default:` branch) the function
prints and returns after the read, without writing. -/
def pinWrite (bus : Bus) (s : St) (pin : Nat) (value : pin_Value) : St :=
  if !pinCheck pin then s
  else
    let reg := if pin < 8 then OLATA else OLATB
    let bit := pin % 8
    let r := readReg bus s reg
    match value with
    | .HIGH => writeReg bus r.2 reg (setBit8 r.1 bit)
    | .LOW => writeReg bus r.2 reg (clearBit8 r.1 bit)
    | .ERROR => r.2

/-- C++ `pinRead(uint8_t pin)`: returns `ERROR` on an invalid index without
touching the bus, otherwise reads the bank's input register and extracts
the bit. -/
def pinRead (bus : Bus) (s : St) (pin : Nat) : pin_Value × St :=
  if !pinCheck pin then (.ERROR, s)
  else
    let reg := if pin < 8 then GPIOA else GPIOB
    let bit := pin % 8
    let r := readReg bus s reg
    (if (r.1 >>> bit) &&& 1 != 0 then .HIGH else .LOW, r.2)

/-- C++ `enableInt(uint8_t pin, bool enable)`: read-modify-write of the
bank's `GPINTEN` register. -/
def enableInt (bus : Bus) (s : St) (pin : Nat) (enable : Bool) : St :=
  if !pinCheck pin then s
  else
    let regGPINTEN := if pin < 8 then GPINTENA else GPINTENB
    let bit := pin % 8
    let r := readReg bus s regGPINTEN
    let regVal := if enable then setBit8 r.1 bit else clearBit8 r.1 bit
    writeReg bus r.2 regGPINTEN regVal

/-- C++ `intOutputMode(pin_Value w_INTPOL, bool w_ODR, bool w_MIRROR)`:
read-modify-write of `IOCON`; bit 2 = open drain, bit 1 = polarity (forced
clear when open drain), bit 6 = mirror. -/
def intOutputMode (bus : Bus) (s : St) (w_INTPOL : pin_Value) (w_ODR : Bool)
    (w_MIRROR : Bool) : St :=
  let r := readReg bus s IOCON
  let val := if w_ODR then setBit8 r.1 2 else clearBit8 r.1 2
  let val :=
    if !w_ODR then
      if w_INTPOL = .HIGH then setBit8 val 1 else clearBit8 val 1
    else clearBit8 val 1
  let val := if w_MIRROR then setBit8 val 6 else clearBit8 val 6
  writeReg bus r.2 IOCON val

/-- C++ `intTriggerMode(uint8_t pin, int_Mode mode)`: read-modify-write of
the bank's `INTCON` and `DEFVAL` registers; `CHANGE` leaves the `DEFVAL`
byte as read. -/
def intTriggerMode (bus : Bus) (s : St) (pin : Nat) (mode : int_Mode) : St :=
  if !pinCheck pin then s
  else
    let regDEFVAL := if pin < 8 then DEFVALA else DEFVALB
    let regINTCON := if pin < 8 then INTCONA else INTCONB
    let bit := pin % 8
    let r1 := readReg bus s regINTCON
    let r2 := readReg bus r1.2 regDEFVAL
    let vals :=
      match mode with
      | .CHANGE => (clearBit8 r1.1 bit, r2.1)
      | .RISING => (setBit8 r1.1 bit, setBit8 r2.1 bit)
      | .FALLING => (setBit8 r1.1 bit, clearBit8 r2.1 bit)
    writeReg bus (writeReg bus r2.2 regINTCON vals.1) regDEFVAL vals.2

/-! ### Interrupt status and capture -/

/-- C++ private `readIntFlags(bool clear)`: reads `INTFA`/`INTFB`,
assembles `(b << 8) | a`, then (when `clear`) zeroes both flag registers;
the returned value is the pre-clear one. -/
def readIntFlags (bus : Bus) (s : St) (clear : Bool) : Nat × St :=
  let ra := readReg bus s INTFA
  let rb := readReg bus ra.2 INTFB
  let flags := (rb.1 <<< 8) ||| ra.1
  if clear then
    (flags, writeReg bus (writeReg bus rb.2 INTFA 0x00) INTFB 0x00)
  else (flags, rb.2)

/-- C++ `getInterruptFlags(bool clear)`: thin wrapper over `readIntFlags`. -/
def getInterruptFlags (bus : Bus) (s : St) (clear : Bool) : Nat × St :=
  readIntFlags bus s clear

/-- C++ `isInterruptOnPin(uint8_t pin, bool clear)`: `false` on an invalid
index, otherwise tests bit `pin` of the assembled flags. -/
def isInterruptOnPin (bus : Bus) (s : St) (pin : Nat) (clear : Bool) :
    Bool × St :=
  if !pinCheck pin then (false, s)
  else
    let r := readIntFlags bus s clear
    (r.1 &&& (1 <<< pin) != 0, r.2)

/-- C++ `clearIntCapture(uint16_t pin)`: dummy read of the pin's bank's
live `GPIO` register (the chip releases the latched interrupt on that
read); the value is discarded. -/
def clearIntCapture (bus : Bus) (s : St) (pin : Nat) : St :=
  if pin < 8 then (readReg bus s GPIOA).2 else (readReg bus s GPIOB).2

/-- The `for (pin = 0; pin < 16; pin++)` loop body of C++ `getIntCapture`,
recursing over the remaining pin indices: for each set flag bit push an
event (level taken from `captured`), then, when `clear`, acknowledge via
`clearIntCapture`. -/
def captureLoop (bus : Bus) (flags captured : Nat) (clear : Bool) (s : St) :
    List Nat → List IntEvent × St
  | [] => ([], s)
  | pin :: rest =>
    if flags &&& (1 <<< pin) != 0 then
      let s' := if clear then clearIntCapture bus s pin else s
      let r := captureLoop bus flags captured clear s' rest
      (⟨pin, captured &&& (1 <<< pin) != 0⟩ :: r.1, r.2)
    else captureLoop bus flags captured clear s rest

/-- C++ `getIntCapture(bool clear)`: reads both flag registers and both
capture registers, assembles two 16-bit fields, and walks pins 0–15. -/
def getIntCapture (bus : Bus) (s : St) (clear : Bool) :
    List IntEvent × St :=
  let ra := readReg bus s INTFA
  let rb := readReg bus ra.2 INTFB
  let flags := (rb.1 <<< 8) ||| ra.1
  let rca := readReg bus rb.2 INTCAPA
  let rcb := readReg bus rca.2 INTCAPB
  let captured := (rcb.1 <<< 8) ||| rca.1
  captureLoop bus flags captured clear rcb.2 (List.range 16)

/-- C++ constructor `MCP23017(address, i2cDev)`: `open`, then `ioctl`, then
the two `IODIR` initialisation writes.  A failed `open` or `ioctl` throws
inside the constructor's own `try`, is caught, printed — and that is all:
the constructor still completes, handing the caller an object with an
invalid descriptor and no error indication.  The two `Bool` parameters say
whether `open` and `ioctl` succeeded; the init writes go through `bus`. -/
def MCP23017_ctor (bus : Bus) (openOK ioctlOK : Bool) (s : St) : St :=
  if !openOK then s
  else if !ioctlOK then s
  else writeReg bus (writeReg bus s IODIRA 0xFF) IODIRB 0xFF

/-! ### Small helpers used only in statements -/

/-- A register file holding byte `a` in `INTFA`, byte `b` in `INTFB`, and
zero elsewhere. -/
def flagRegs (a b : Nat) : Regs :=
  fun r => if r = INTFA then a else if r = INTFB then b else 0

/-! ### Helper lemmas -/

theorem pinCheck_le (p : Nat) (hp : p ≤ 15) : pinCheck p = true := by
  have h1 : ¬((p : Int) < 0) := by omega
  have h2 : ¬((p : Int) > 15) := by omega
  simp [pinCheck, h1, h2]

theorem testBit_mod256 (x j : Nat) :
    (x % 256).testBit j = (decide (j < 8) && x.testBit j) := by
  have h : (256 : Nat) = 2 ^ 8 := by norm_num
  rw [h, Nat.testBit_mod_two_pow]

theorem testBit_255 (j : Nat) : (255 : Nat).testBit j = decide (j < 8) := by
  have h : (255 : Nat) = 2 ^ 8 - 1 := by norm_num
  rw [h, Nat.testBit_two_pow_sub_one]

theorem setBit8_testBit_self (v b : Nat) : (setBit8 v b).testBit b = true := by
  simp [setBit8, Nat.testBit_or, Nat.one_shiftLeft, Nat.testBit_two_pow]

theorem setBit8_testBit (v b j : Nat) :
    (setBit8 v b).testBit j = (v.testBit j || decide (b = j)) := by
  simp [setBit8, Nat.testBit_or, Nat.one_shiftLeft, Nat.testBit_two_pow]

theorem setBit8_testBit_ne (v b j : Nat) (h : b ≠ j) :
    (setBit8 v b).testBit j = v.testBit j := by
  simp [setBit8, Nat.testBit_or, Nat.one_shiftLeft, Nat.testBit_two_pow, h]

theorem clearBit8_testBit (v b j : Nat) :
    (clearBit8 v b).testBit j
      = (v.testBit j && (decide (j < 8) ^^ decide (b = j))) := by
  simp [clearBit8, Nat.testBit_and, Nat.testBit_xor, Nat.one_shiftLeft,
    Nat.testBit_two_pow, testBit_255]

theorem clearBit8_testBit_self (v b : Nat) (hb : b < 8) :
    (clearBit8 v b).testBit b = false := by
  simp [clearBit8_testBit, hb]

theorem clearBit8_testBit_ne (v b j : Nat) (hj : j < 8) (h : b ≠ j) :
    (clearBit8 v b).testBit j = v.testBit j := by
  simp [clearBit8_testBit, hj, h]

/-- Byte assembly: for a low byte `a < 256`, `(b <<< 8) ||| a` is the
number with high part `b` and low byte `a`. -/
theorem assemble16 (b a : Nat) (ha : a < 256) : (b <<< 8) ||| a = 256 * b + a := by
  have h8 : (256 : Nat) = 2 ^ 8 := by norm_num
  rw [Nat.shiftLeft_eq, h8, mul_comm b (2 ^ 8)]
  exact (Nat.mul_add_lt_is_or (h8 ▸ ha) b).symm

/-! ### Claim theorems -/

/-- C1: `getInterruptFlags` assembles the two bank flag bytes with bank B
(`INTFB`) in the high byte and bank A (`INTFA`) in the low byte; in
particular bank A = `0b00000001`, bank B = `0x00` yields `0x0001`, and
bank A = `0x00`, bank B = `0b00000001` yields `0x0100`. -/
theorem spec_C1 (regs : Regs) (clear : Bool) :
    (getInterruptFlags allOK ⟨regs, []⟩ clear).1
        = 256 * (regs INTFB % 256) + (regs INTFA % 256)
  ∧ (getInterruptFlags allOK ⟨flagRegs 0b00000001 0x00, []⟩ clear).1 = 0x0001
  ∧ (getInterruptFlags allOK ⟨flagRegs 0x00 0b00000001, []⟩ clear).1 = 0x0100 := by
  refine ⟨?_, ?_, ?_⟩
  · cases clear <;>
      simp [getInterruptFlags, readIntFlags, readReg, writeReg, allOK,
        INTFA, INTFB] <;>
      exact assemble16 _ _ (Nat.mod_lt _ (by norm_num))
  · cases clear <;> decide
  · cases clear <;> decide

/-- C2: for every pin `p ≤ 15` and starting register state,
`pinMode p OUTPUT` clears the direction bit and the pull-up bit at
position `p % 8` of `p`'s bank; `INPUT` sets the direction bit and clears
the pull-up bit; `INPUT_PULLUP` sets both — regardless of prior values. -/
theorem spec_C2 (regs : Regs) (pin : Nat) (mode : pin_Mode) (hpin : pin ≤ 15) :
    ((pinMode allOK ⟨regs, []⟩ pin mode).regs
        (if pin < 8 then IODIRA else IODIRB)).testBit (pin % 8)
      = (match mode with
         | pin_Mode.OUTPUT => false
         | pin_Mode.INPUT => true
         | pin_Mode.INPUT_PULLUP => true)
  ∧ ((pinMode allOK ⟨regs, []⟩ pin mode).regs
        (if pin < 8 then GPPUA else GPPUB)).testBit (pin % 8)
      = (match mode with
         | pin_Mode.INPUT_PULLUP => true
         | pin_Mode.INPUT => false
         | pin_Mode.OUTPUT => false) := by
  have hb : pin % 8 < 8 := Nat.mod_lt _ (by norm_num)
  have hc := pinCheck_le pin hpin
  by_cases h8 : pin < 8 <;> cases mode <;>
    simp [pinMode, readReg, writeReg, allOK, hc, h8, hb,
      IODIRA, IODIRB, GPPUA, GPPUB, testBit_mod256,
      setBit8_testBit_self, clearBit8_testBit_self]

/-- C2 witness: pin 9 with `INPUT_PULLUP` on an all-0x55 register file. -/
theorem spec_C2_witness :
    ((pinMode allOK ⟨fun _ => 0x55, []⟩ 9 pin_Mode.INPUT_PULLUP).regs
        (if 9 < 8 then IODIRA else IODIRB)).testBit (9 % 8)
      = (match pin_Mode.INPUT_PULLUP with
         | pin_Mode.OUTPUT => false
         | pin_Mode.INPUT => true
         | pin_Mode.INPUT_PULLUP => true)
  ∧ ((pinMode allOK ⟨fun _ => 0x55, []⟩ 9 pin_Mode.INPUT_PULLUP).regs
        (if 9 < 8 then GPPUA else GPPUB)).testBit (9 % 8)
      = (match pin_Mode.INPUT_PULLUP with
         | pin_Mode.INPUT_PULLUP => true
         | pin_Mode.INPUT => false
         | pin_Mode.OUTPUT => false) :=
  spec_C2 (fun _ => 0x55) 9 pin_Mode.INPUT_PULLUP (by decide)

/-- C3: for every pin `p ≤ 15`, `intTriggerMode p RISING` sets both the
interrupt-control (`INTCON`) bit and the default-compare (`DEFVAL`) bit at
position `p % 8` of `p`'s bank; `FALLING` sets the control bit and clears
the compare bit; `CHANGE` clears the control bit and leaves the compare
bit exactly as it was; every other bit of both register bytes is
unchanged. -/
theorem spec_C3 (regs : Regs) (pin : Nat) (mode : int_Mode) (hpin : pin ≤ 15) :
    ((intTriggerMode allOK ⟨regs, []⟩ pin mode).regs
        (if pin < 8 then INTCONA else INTCONB)).testBit (pin % 8)
      = (match mode with
         | int_Mode.CHANGE => false
         | int_Mode.RISING => true
         | int_Mode.FALLING => true)
  ∧ ((intTriggerMode allOK ⟨regs, []⟩ pin mode).regs
        (if pin < 8 then DEFVALA else DEFVALB)).testBit (pin % 8)
      = (match mode with
         | int_Mode.RISING => true
         | int_Mode.FALLING => false
         | int_Mode.CHANGE =>
             ((regs (if pin < 8 then DEFVALA else DEFVALB)) % 256).testBit (pin % 8))
  ∧ (∀ j, j ≠ pin % 8 →
      ((intTriggerMode allOK ⟨regs, []⟩ pin mode).regs
          (if pin < 8 then INTCONA else INTCONB)).testBit j
        = ((regs (if pin < 8 then INTCONA else INTCONB)) % 256).testBit j
      ∧ ((intTriggerMode allOK ⟨regs, []⟩ pin mode).regs
          (if pin < 8 then DEFVALA else DEFVALB)).testBit j
        = ((regs (if pin < 8 then DEFVALA else DEFVALB)) % 256).testBit j) := by
  have hb : pin % 8 < 8 := Nat.mod_lt _ (by norm_num)
  have hc := pinCheck_le pin hpin
  refine ⟨?_, ?_, ?_⟩
  · by_cases h8 : pin < 8 <;> cases mode <;>
      simp [intTriggerMode, readReg, writeReg, allOK, hc, h8, hb,
        INTCONA, INTCONB, DEFVALA, DEFVALB, testBit_mod256,
        setBit8_testBit_self, clearBit8_testBit_self]
  · by_cases h8 : pin < 8 <;> cases mode <;>
      simp [intTriggerMode, readReg, writeReg, allOK, hc, h8, hb,
        INTCONA, INTCONB, DEFVALA, DEFVALB, testBit_mod256,
        setBit8_testBit_self, clearBit8_testBit_self]
  · intro j hj
    have hne : pin % 8 ≠ j := Ne.symm hj
    by_cases h8 : pin < 8 <;> cases mode <;>
      constructor <;>
      simp [intTriggerMode, readReg, writeReg, allOK, hc, h8, hb, hne,
        INTCONA, INTCONB, DEFVALA, DEFVALB, testBit_mod256,
        setBit8_testBit, clearBit8_testBit] <;>
      rcases Nat.lt_or_ge j 8 with hj8 | hj8 <;>
      simp [hj8, Nat.not_lt.2 hj8]

/-- C3 witness: pin 10 with `CHANGE` on an all-0xFF register file. -/
theorem spec_C3_witness :
    ((intTriggerMode allOK ⟨fun _ => 0xFF, []⟩ 10 int_Mode.CHANGE).regs
        (if 10 < 8 then INTCONA else INTCONB)).testBit (10 % 8)
      = (match int_Mode.CHANGE with
         | int_Mode.CHANGE => false
         | int_Mode.RISING => true
         | int_Mode.FALLING => true)
  ∧ ((intTriggerMode allOK ⟨fun _ => 0xFF, []⟩ 10 int_Mode.CHANGE).regs
        (if 10 < 8 then DEFVALA else DEFVALB)).testBit (10 % 8)
      = (match int_Mode.CHANGE with
         | int_Mode.RISING => true
         | int_Mode.FALLING => false
         | int_Mode.CHANGE =>
             (((fun (_ : Nat) => 0xFF) (if 10 < 8 then DEFVALA else DEFVALB)) % 256).testBit
               (10 % 8))
  ∧ (∀ j, j ≠ 10 % 8 →
      ((intTriggerMode allOK ⟨fun _ => 0xFF, []⟩ 10 int_Mode.CHANGE).regs
          (if 10 < 8 then INTCONA else INTCONB)).testBit j
        = (((fun (_ : Nat) => 0xFF) (if 10 < 8 then INTCONA else INTCONB)) % 256).testBit j
      ∧ ((intTriggerMode allOK ⟨fun _ => 0xFF, []⟩ 10 int_Mode.CHANGE).regs
          (if 10 < 8 then DEFVALA else DEFVALB)).testBit j
        = (((fun (_ : Nat) => 0xFF) (if 10 < 8 then DEFVALA else DEFVALB)) % 256).testBit j) :=
  spec_C3 (fun _ => 0xFF) 10 int_Mode.CHANGE (by decide)

/-- C5: for every pin `p ≤ 15` and value `HIGH`/`LOW`, `pinWrite` performs
exactly one read, of the bank's output latch (`OLATA`/`OLATB`, not the
`GPIO` input register), followed by one write back to the same latch; the
written byte has bit `p % 8` equal to the requested value and agrees with
the byte read on every other bit. -/
theorem spec_C5 (regs : Regs) (pin : Nat) (value : pin_Value) (hpin : pin ≤ 15)
    (hv : value ≠ pin_Value.ERROR) :
    (pinWrite allOK ⟨regs, []⟩ pin value).trace
      = [Tx.rd (if pin < 8 then OLATA else OLATB),
         Tx.wr (if pin < 8 then OLATA else OLATB)
           ((pinWrite allOK ⟨regs, []⟩ pin value).regs
             (if pin < 8 then OLATA else OLATB))]
  ∧ ((pinWrite allOK ⟨regs, []⟩ pin value).regs
        (if pin < 8 then OLATA else OLATB)).testBit (pin % 8)
      = (match value with | pin_Value.HIGH => true | _ => false)
  ∧ (∀ j, j ≠ pin % 8 →
      ((pinWrite allOK ⟨regs, []⟩ pin value).regs
          (if pin < 8 then OLATA else OLATB)).testBit j
        = ((regs (if pin < 8 then OLATA else OLATB)) % 256).testBit j) := by
  have hb : pin % 8 < 8 := Nat.mod_lt _ (by norm_num)
  have hc := pinCheck_le pin hpin
  refine ⟨?_, ?_, ?_⟩
  · cases value <;> [skip; skip; exact absurd rfl hv] <;>
      by_cases h8 : pin < 8 <;>
      simp [pinWrite, readReg, writeReg, allOK, hc, h8, OLATA, OLATB]
  · cases value <;> [skip; skip; exact absurd rfl hv] <;>
      by_cases h8 : pin < 8 <;>
      simp [pinWrite, readReg, writeReg, allOK, hc, h8, hb, OLATA, OLATB,
        testBit_mod256, setBit8_testBit_self, clearBit8_testBit_self]
  · intro j hj
    have hne : pin % 8 ≠ j := Ne.symm hj
    cases value <;> [skip; skip; exact absurd rfl hv] <;>
      by_cases h8 : pin < 8 <;>
      simp [pinWrite, readReg, writeReg, allOK, hc, h8, hb, hne, OLATA, OLATB,
        testBit_mod256, setBit8_testBit, clearBit8_testBit] <;>
      rcases Nat.lt_or_ge j 8 with hj8 | hj8 <;>
      simp [hj8, Nat.not_lt.2 hj8]

/-- C5 witness: pin 0 driven `HIGH` over an all-zero register file. -/
theorem spec_C5_witness :
    (pinWrite allOK ⟨fun _ => 0, []⟩ 0 pin_Value.HIGH).trace
      = [Tx.rd (if 0 < 8 then OLATA else OLATB),
         Tx.wr (if 0 < 8 then OLATA else OLATB)
           ((pinWrite allOK ⟨fun _ => 0, []⟩ 0 pin_Value.HIGH).regs
             (if 0 < 8 then OLATA else OLATB))]
  ∧ ((pinWrite allOK ⟨fun _ => 0, []⟩ 0 pin_Value.HIGH).regs
        (if 0 < 8 then OLATA else OLATB)).testBit (0 % 8)
      = (match pin_Value.HIGH with | pin_Value.HIGH => true | _ => false)
  ∧ (∀ j, j ≠ 0 % 8 →
      ((pinWrite allOK ⟨fun _ => 0, []⟩ 0 pin_Value.HIGH).regs
          (if 0 < 8 then OLATA else OLATB)).testBit j
        = (((fun (_ : Nat) => 0) (if 0 < 8 then OLATA else OLATB)) % 256).testBit j) :=
  spec_C5 (fun _ => 0) 0 pin_Value.HIGH (by decide) (by decide)

/-- C6: the `IOCON` byte written by `intOutputMode` has its polarity bit
(bit 1) cleared whenever open-drain is requested, regardless of the
requested polarity; without open-drain the polarity bit equals whether the
requested polarity is `HIGH`. -/
theorem spec_C6 (regs : Regs) (pol : pin_Value) (odr mir : Bool) :
    ((intOutputMode allOK ⟨regs, []⟩ pol odr mir).regs IOCON).testBit 1
      = (!odr && decide (pol = pin_Value.HIGH)) := by
  cases odr <;> cases mir <;> cases pol <;>
    simp [intOutputMode, readReg, writeReg, allOK, IOCON, testBit_mod256,
      setBit8_testBit, clearBit8_testBit]

/-! ### Lemmas about the `getIntCapture` pin loop -/

theorem readReg_snd (bus : Bus) (s : St) (reg : Nat) :
    (readReg bus s reg).2 = ⟨s.regs, s.trace ++ [Tx.rd reg]⟩ := by
  unfold readReg
  split <;> rfl

theorem clearIntCapture_eq (bus : Bus) (s : St) (pin : Nat) :
    clearIntCapture bus s pin
      = ⟨s.regs, s.trace ++ [Tx.rd (if pin < 8 then GPIOA else GPIOB)]⟩ := by
  by_cases h : pin < 8 <;> simp [clearIntCapture, h, readReg_snd]

theorem captureLoop_fst (bus : Bus) (flags captured : Nat) (clear : Bool) :
    ∀ (l : List Nat) (s : St),
      (captureLoop bus flags captured clear s l).1
        = (l.filter (fun p => flags &&& (1 <<< p) != 0)).map
            (fun p => ⟨p, captured &&& (1 <<< p) != 0⟩) := by
  intro l
  induction l with
  | nil => intro s; rfl
  | cons p rest ih =>
    intro s
    by_cases hp : (flags &&& (1 <<< p) != 0) = true <;>
      simp [captureLoop, hp, ih]

theorem captureLoop_snd (bus : Bus) (flags captured : Nat) (clear : Bool) :
    ∀ (l : List Nat) (s : St),
      (captureLoop bus flags captured clear s l).2
        = ⟨s.regs,
           s.trace ++
             if clear then
               (l.filter (fun p => flags &&& (1 <<< p) != 0)).map
                 (fun p => Tx.rd (if p < 8 then GPIOA else GPIOB))
             else []⟩ := by
  intro l
  induction l with
  | nil => intro s; cases clear <;> simp [captureLoop]
  | cons p rest ih =>
    intro s
    cases clear <;>
      by_cases hp : (flags &&& (1 <<< p) != 0) = true <;>
      simp [captureLoop, hp, ih, clearIntCapture_eq]

/-- C9: `getIntCapture` returns one `(pin, level)` event per set bit of the
assembled 16-bit flags field, in ascending pin order, with the level taken
from the corresponding bit of the assembled capture field; with
`clear = true` its trace is the four register reads followed by exactly one
read of the reported pin's bank's live `GPIO` register per event — and the
trace contains no register write at all (in particular none to the flag
registers). -/
theorem spec_C9 (regs : Regs) (clear : Bool) :
    (getIntCapture allOK ⟨regs, []⟩ clear).1
      = ((List.range 16).filter
          (fun p => (((regs INTFB % 256) <<< 8) ||| (regs INTFA % 256)) &&& (1 <<< p) != 0)).map
          (fun p => ⟨p, (((regs INTCAPB % 256) <<< 8) ||| (regs INTCAPA % 256)) &&& (1 <<< p) != 0⟩)
  ∧ ((getIntCapture allOK ⟨regs, []⟩ clear).1.map IntEvent.pin).Pairwise (· < ·)
  ∧ (getIntCapture allOK ⟨regs, []⟩ clear).2.trace
      = [Tx.rd INTFA, Tx.rd INTFB, Tx.rd INTCAPA, Tx.rd INTCAPB] ++
          (if clear then
            ((List.range 16).filter
              (fun p => (((regs INTFB % 256) <<< 8) ||| (regs INTFA % 256)) &&& (1 <<< p) != 0)).map
              (fun p => Tx.rd (if p < 8 then GPIOA else GPIOB))
           else [])
  ∧ (∀ reg val, Tx.wr reg val ∉ (getIntCapture allOK ⟨regs, []⟩ clear).2.trace) := by
  have h1 : (getIntCapture allOK ⟨regs, []⟩ clear).1
      = ((List.range 16).filter
          (fun p => (((regs INTFB % 256) <<< 8) ||| (regs INTFA % 256)) &&& (1 <<< p) != 0)).map
          (fun p => ⟨p, (((regs INTCAPB % 256) <<< 8) ||| (regs INTCAPA % 256)) &&& (1 <<< p) != 0⟩) := by
    simp [getIntCapture, readReg, allOK, captureLoop_fst]
  have h3 : (getIntCapture allOK ⟨regs, []⟩ clear).2.trace
      = [Tx.rd INTFA, Tx.rd INTFB, Tx.rd INTCAPA, Tx.rd INTCAPB] ++
          (if clear then
            ((List.range 16).filter
              (fun p => (((regs INTFB % 256) <<< 8) ||| (regs INTFA % 256)) &&& (1 <<< p) != 0)).map
              (fun p => Tx.rd (if p < 8 then GPIOA else GPIOB))
           else []) := by
    cases clear <;> simp [getIntCapture, readReg, allOK, captureLoop_snd]
  refine ⟨h1, ?_, h3, ?_⟩
  · rw [h1, List.map_map, List.pairwise_map]
    exact (List.pairwise_lt_range 16).sublist (List.filter_sublist _)
  · intro reg val hmem
    rw [h3] at hmem
    rcases List.mem_append.mp hmem with h | h
    · simp at h
    · rcases clear with _ | _
      · simp at h
      · simp at h
      -- each case: membership in a list of `Tx.rd` values is impossible

/-- C10: for every valid pin `p ≤ 15`, `isInterruptOnPin p (clear := true)`
unconditionally (for every starting register state, even all-zero flags)
writes `0x00` to both banks' interrupt-flag registers, and its boolean
result is bit `p` of the flags assembled from the bytes read before that
clear. -/
theorem spec_C10 (regs : Regs) (pin : Nat) (hpin : pin ≤ 15) :
    (isInterruptOnPin allOK ⟨regs, []⟩ pin true).2.trace
      = [Tx.rd INTFA, Tx.rd INTFB, Tx.wr INTFA 0, Tx.wr INTFB 0]
  ∧ (isInterruptOnPin allOK ⟨regs, []⟩ pin true).2.regs INTFA = 0
  ∧ (isInterruptOnPin allOK ⟨regs, []⟩ pin true).2.regs INTFB = 0
  ∧ (isInterruptOnPin allOK ⟨regs, []⟩ pin true).1
      = ((((regs INTFB % 256) <<< 8) ||| (regs INTFA % 256)) &&& (1 <<< pin) != 0) := by
  have hc := pinCheck_le pin hpin
  refine ⟨?_, ?_, ?_, ?_⟩ <;>
    simp [isInterruptOnPin, readIntFlags, readReg, writeReg, allOK, hc,
      INTFA, INTFB]

/-- C10 witness: pin 3 on an all-zero register file (no flag set at all:
the clear writes still happen and the result is `false`). -/
theorem spec_C10_witness :
    (isInterruptOnPin allOK ⟨fun _ => 0, []⟩ 3 true).2.trace
      = [Tx.rd INTFA, Tx.rd INTFB, Tx.wr INTFA 0, Tx.wr INTFB 0]
  ∧ (isInterruptOnPin allOK ⟨fun _ => 0, []⟩ 3 true).2.regs INTFA = 0
  ∧ (isInterruptOnPin allOK ⟨fun _ => 0, []⟩ 3 true).2.regs INTFB = 0
  ∧ (isInterruptOnPin allOK ⟨fun _ => 0, []⟩ 3 true).1
      = (((((fun (_ : Nat) => 0) INTFB % 256) <<< 8) |||
            ((fun (_ : Nat) => 0) INTFA % 256)) &&& (1 <<< 3) != 0) :=
  spec_C10 (fun _ => 0) 3 (by decide)

/-- C4: evaluation at the out-of-range indices 16 and 255 (the latter is
what a caller-supplied `-1` becomes at the `uint8_t` parameter boundary).
Every pin operation returns with the world state — registers *and* trace —
untouched, so no bus transaction is issued; but the only return values are
the unchanged state itself, `ERROR` for `pinRead`, and `false` for
`isInterruptOnPin`: the void operations surface no inspectable failure,
the caller cannot distinguish them from success. -/
theorem spec_C4 (s : St) (mode : pin_Mode) (v : pin_Value) (im : int_Mode)
    (en clear : Bool) :
    pinMode allOK s 16 mode = s
  ∧ pinWrite allOK s 16 v = s
  ∧ pinRead allOK s 16 = (pin_Value.ERROR, s)
  ∧ enableInt allOK s 16 en = s
  ∧ intTriggerMode allOK s 16 im = s
  ∧ isInterruptOnPin allOK s 16 clear = (false, s)
  ∧ pinMode allOK s 255 mode = s
  ∧ pinWrite allOK s 255 v = s
  ∧ pinRead allOK s 255 = (pin_Value.ERROR, s)
  ∧ enableInt allOK s 255 en = s
  ∧ intTriggerMode allOK s 255 im = s
  ∧ isInterruptOnPin allOK s 255 clear = (false, s) := by
  have hc : pinCheck (16 : Int) = false := by decide
  have hc' : pinCheck (255 : Int) = false := by decide
  refine ⟨?_, ?_, ?_, ?_, ?_, ?_, ?_, ?_, ?_, ?_, ?_, ?_⟩ <;>
    simp [pinMode, pinWrite, pinRead, enableInt, intTriggerMode,
      isInterruptOnPin, hc, hc']

/-- C7: when the priming read of the output latch fails (`busReadFail
OLATA`: the transport nacks reads of `OLATA`), `pinWrite 0 HIGH` does not
abort — it substitutes the defaulted `0` byte, still performs the write,
and stores `0x01`: the latch byte that was `0xAB` loses every other set
bit (e.g. pin 1's bit, previously 1, is now 0). -/
theorem spec_C7 :
    (pinWrite (busReadFail OLATA) ⟨fun _ => 0xAB, []⟩ 0 pin_Value.HIGH).trace
      = [Tx.rd OLATA, Tx.wr OLATA 0x01]
  ∧ (pinWrite (busReadFail OLATA) ⟨fun _ => 0xAB, []⟩ 0 pin_Value.HIGH).regs OLATA
      = 0x01
  ∧ ((0xAB : Nat).testBit 1 = true
      ∧ ((pinWrite (busReadFail OLATA) ⟨fun _ => 0xAB, []⟩ 0
            pin_Value.HIGH).regs OLATA).testBit 1 = false) := by
  refine ⟨by decide, by decide, by decide, by decide⟩

/-- C8: after a failed `open` the constructor completes with the world
untouched — it issues no transaction, but also hands back no inspectable
failure (its only "output" is the unchanged state).  A subsequent
`pinMode 0 OUTPUT` on the dead instance does not fail fast: it still
issues two register reads and two register writes on the invalid handle
(all failing at the syscall level and silently defaulted). -/
theorem spec_C8 :
    MCP23017_ctor busDown false true ⟨fun _ => 0, []⟩ = ⟨fun _ => 0, []⟩
  ∧ (pinMode busDown ⟨fun _ => 0, []⟩ 0 pin_Mode.OUTPUT).trace
      = [Tx.rd IODIRA, Tx.rd GPPUA, Tx.wr IODIRA 0, Tx.wr GPPUA 0]
  ∧ (pinMode busDown ⟨fun _ => 0, []⟩ 0 pin_Mode.OUTPUT).trace ≠ [] := by
  exact ⟨rfl, by decide, by decide⟩

end MCP23017
